import Mathlib

/-!
# ExamModuleList: flattening, date filter, deduplication and flag toggles

A shallow embedding of `src/components/Home/ExamModuleList.jsx`.

* JavaScript arrays are Lean lists; `Array.prototype.flatMap`, `map`, `filter`
  and `find` are `List.flatMap`, `List.map`, `List.filter` and `List.find?`.
* Identifiers (`classId`, `moduleId`) are integers compared with `===`.
* The optional payload flags `isSurvey` / `isExam` are `Option Bool`
  (`none` is an absent field, read as `undefined`).
* The component state (`useState` cells) together with the log of issued
  `fetch` calls, the writes still awaiting their response and the
  notifications shown is an explicit `State` record.
-/

namespace ExamModuleList

/-! ## Data model -/

/-- Identifier of a class or of a module in the remote payload. -/
abbrev Identifier := Int

/-- One module of a class in the payload of `GetAllExamModule`. -/
structure Module where
  moduleId : Identifier
  modulName : String
  startDate : String
  endDate : String
  isSurvey : Option Bool
  isExam : Option Bool
deriving DecidableEq, Repr

/-- One class of the payload of `GetAllExamModule`, with its modules. -/
structure ClassData where
  classId : Identifier
  className : String
  programName : String
  modules : List Module
deriving DecidableEq, Repr

/-- One flattened table row, the object literal built in `flattenModules`. -/
structure Row where
  classId : Identifier
  moduleId : Identifier
  className : String
  programName : String
  moduleName : String
  startDate : String
  endDate : String
  survey : Bool
  exam : Bool
deriving DecidableEq, Repr

/-- The expression `v || false` for an optional boolean field `v`: the left
operand when it is truthy, the right operand otherwise (`undefined` and
`false` are falsy). -/
def orFalse (v : Option Bool) : Bool :=
  match v with
  | some true => true
  | _ => false

/-! ## Module flattener -/

/-- The object literal of `flattenModules` for one class and one of its modules. -/
def mkRow (classData : ClassData) (module : Module) : Row :=
  { classId := classData.classId
    moduleId := module.moduleId
    className := classData.className
    programName := classData.programName
    moduleName := module.modulName
    startDate := module.startDate
    endDate := module.endDate
    survey := orFalse module.isSurvey
    exam := orFalse module.isExam }

/-- The function `flattenModules`:
`data.flatMap((classData) => classData.modules.map((module) => (...)))`. -/
def flattenModules (data : List ClassData) : List Row :=
  data.flatMap (fun classData => classData.modules.map (fun module => mkRow classData module))

/-- Number of rows produced by the classes that precede position `i`. -/
def rowOffset (data : List ClassData) (i : Nat) : Nat :=
  ((data.take i).map (fun classData => classData.modules.length)).sum

/-! ## Date filter -/

/-- Value of a decimal digit character. -/
def digitVal (c : Char) : Option Nat :=
  if '0' ≤ c ∧ c ≤ '9' then some (c.toNat - '0'.toNat) else none

/-- Gregorian leap years. -/
def isLeapYear (y : Int) : Bool :=
  (y % 4 == 0 && y % 100 != 0) || y % 400 == 0

/-- Number of days of month `m` (1 to 12) of year `y`. -/
def daysInMonth (y : Int) (m : Nat) : Nat :=
  match m with
  | 2 => if isLeapYear y then 29 else 28
  | 4 | 6 | 9 | 11 => 30
  | _ => 31

/-- Day number of 1 January of year `y`, counted from 1 January 1970
(`DayFromYear` of ECMA-262). -/
def dayFromYear (y : Int) : Int :=
  365 * (y - 1970) + (y - 1969) / 4 - (y - 1901) / 100 + (y - 1601) / 400

/-- Days of year `y` that precede its month `m`. -/
def daysBeforeMonth (y : Int) (m : Nat) : Nat :=
  ((List.range (m - 1)).map (fun k => daysInMonth y (k + 1))).sum

/-- The date-only form `YYYY-MM-DD` of the ECMA-262 date-time string format,
for a calendar date that exists: the time value is midnight UTC of that day,
in milliseconds since the epoch. Every other string gives `none` here. -/
def parseIsoDateOnly (s : List Char) : Option Int :=
  match s with
  | [y1, y2, y3, y4, '-', m1, m2, '-', d1, d2] =>
    match digitVal y1, digitVal y2, digitVal y3, digitVal y4,
          digitVal m1, digitVal m2, digitVal d1, digitVal d2 with
    | some a, some b, some c, some d, some e, some f, some g, some h =>
      let year : Int := ((1000 * a + 100 * b + 10 * c + d : Nat) : Int)
      let month := 10 * e + f
      let day := 10 * g + h
      if 1 ≤ month ∧ month ≤ 12 ∧ 1 ≤ day ∧ day ≤ daysInMonth year month then
        some ((dayFromYear year + daysBeforeMonth year month + (day - 1 : Nat)) * 86400000)
      else none
    | _, _, _, _, _, _, _, _ => none
  | _ => none

/-- The built-in `new Date(string)`, as its time value: `none` is an invalid
date (time value `NaN`). Existing `YYYY-MM-DD` dates are fixed by the language
standard; all other strings (date-time forms read in the local time zone,
legacy formats, out-of-range fields) are left to the parameter `engine`, the
rest of the host's parser. -/
def newDate (engine : String → Option Int) (s : String) : Option Int :=
  match parseIsoDateOnly s.data with
  | some t => some t
  | none => engine s

/-- The comparison `a > b` of two `Date` objects: both are converted to their
time values and any comparison with `NaN` is false. -/
def dateGt (a b : Option Int) : Bool :=
  match a, b with
  | some x, some y => decide (y < x)
  | _, _ => false

/-- The filter of `fetchData`:
`flattenedData.filter((item) => new Date(item.endDate) > new Date("2024-10-01"))`. -/
def dateFilter (engine : String → Option Int) (flattenedData : List Row) : List Row :=
  flattenedData.filter
    (fun item => dateGt (newDate engine item.endDate) (newDate engine "2024-10-01"))

/-- Time value of the cutoff, midnight UTC of 1 October 2024, in milliseconds. -/
def cutoffMs : Int := 1727740800000

/-! ## Component state -/

/-- The two flag columns; the string keys `"survey"` and `"exam"` passed to
`handleCheckboxChange` by the two checkbox columns. -/
inductive Field where
  | survey
  | exam
deriving DecidableEq, Repr

/-- The read `record[key]`. -/
def Row.get (record : Row) (key : Field) : Bool :=
  match key with
  | Field.survey => record.survey
  | Field.exam => record.exam

/-- The object literal `{ ...item, [key]: value }`. -/
def Row.set (item : Row) (key : Field) (value : Bool) : Row :=
  match key with
  | Field.survey => { item with survey := value }
  | Field.exam => { item with exam := value }

/-- A JSON value inside a request body. -/
inductive JVal where
  | num (n : Int)
  | bool (b : Bool)
deriving DecidableEq, Repr

/-- A call of `fetch` with a JSON body: URL, method and the array of objects
that is passed through `JSON.stringify`. -/
structure Request where
  url : String
  method : String
  body : List (List (String × JVal))
deriving DecidableEq, Repr

/-- A call of `message.success` or `message.error`. -/
inductive Notification where
  | success (text : String)
  | error (text : String)
deriving DecidableEq, Repr

/-- How an awaited `fetch` settles: the promise rejects (transport failure)
or resolves to a response with its `ok` flag. -/
inductive FetchOutcome where
  | rejected (reason : String)
  | response (ok : Bool)
deriving DecidableEq, Repr

/-- The `useState` cells of the component, the log of write requests issued,
the writes whose `fetch` has not settled yet, and the notifications shown. -/
structure State where
  data : List Row
  loading : Bool
  error : Option String
  filteredData : List Row
  searchText : String
  requests : List Request
  pending : List Field
  notifications : List Notification
deriving DecidableEq, Repr

/-- State of the component when it is mounted. -/
def State.initial : State :=
  { data := [], loading := true, error := none, filteredData := [], searchText := "",
    requests := [], pending := [], notifications := [] }

/-- The body of `fetchData` once the `GET` has settled; `json` is the result of
`response.json()` read as a class list, or the error raised while reading or
flattening it. -/
def fetchData (engine : String → Option Int) (st : State) (outcome : FetchOutcome)
    (json : Except String (List ClassData)) : State :=
  let tried : Except String State :=
    match outcome with
    | FetchOutcome.rejected reason => Except.error reason
    | FetchOutcome.response ok =>
      if !ok then Except.error "Network response was not ok"
      else
        match json with
        | Except.error e => Except.error e
        | Except.ok result =>
          let flattenedData := flattenModules result
          let filtered := dateFilter engine flattenedData
          Except.ok { st with data := flattenedData, filteredData := filtered }
  let caught : State :=
    match tried with
    | Except.ok st1 => st1
    | Except.error msg => { st with error := some msg }
  { caught with loading := false }

/-! ## Deduplicator -/

/-- A JavaScript `Map` with string keys, as its entries in insertion order. -/
structure JsMap where
  entries : List (String × Row)
deriving DecidableEq, Repr

/-- The call `new Map()`. -/
def JsMap.empty : JsMap := ⟨[]⟩

/-- The method `Map.prototype.has`. -/
def JsMap.has (m : JsMap) (key : String) : Bool :=
  m.entries.any (fun e => e.1 == key)

/-- The method `Map.prototype.set`: a new key is appended, an existing key keeps
its position and takes the new value. -/
def JsMap.set (m : JsMap) (key : String) (value : Row) : JsMap :=
  if m.has key then
    ⟨m.entries.map (fun e => if e.1 == key then (key, value) else e)⟩
  else
    ⟨m.entries ++ [(key, value)]⟩

/-- The call `Array.from(map.values())`. -/
def JsMap.values (m : JsMap) : List Row :=
  m.entries.map (fun e => e.2)

/-- The template literal of `getUniqueData`, the string
`className-programName-moduleName`. -/
def rowKey (item : Row) : String :=
  item.className ++ "-" ++ item.programName ++ "-" ++ item.moduleName

/-- The function `getUniqueData`: one pass over `data` that stores an item under
its key unless the key is already present, then the stored values. -/
def getUniqueData (data : List Row) : List Row :=
  let uniqueMap := data.foldl
    (fun uniqueMap item =>
      let key := rowKey item
      if !uniqueMap.has key then uniqueMap.set key item else uniqueMap)
    JsMap.empty
  uniqueMap.values

/-- The display identity of a row. -/
def triple (item : Row) : String × String × String :=
  (item.className, item.programName, item.moduleName)

/-- The call `s.includes(t)`: `t` occurs in `s` as a contiguous substring. -/
def includes (s t : String) : Bool :=
  decide (t.data <:+: s.data)

/-- The rows handed to the table, `uniqueFilteredData`; `toLowerCase` is the
built-in `String.prototype.toLowerCase`. -/
def uniqueFilteredData (toLowerCase : String → String) (st : State) : List Row :=
  getUniqueData
    (st.filteredData.filter
      (fun item => includes (toLowerCase item.className) (toLowerCase st.searchText)))

/-! ## Flag synchronizer -/

/-- The part of `postExamData` that runs at the call: `fetch` is invoked with
the one-element body and the function suspends at `await`. -/
def postExamData (st : State) (moduleId classId : Identifier) (examValue : Bool) : State :=
  { st with
    requests := st.requests ++
      [{ url := "https://dev-studioapi.code.az/api/Workers/CreateExamSheet"
         method := "POST"
         body := [[("moduleId", JVal.num moduleId), ("classId", JVal.num classId),
                   ("isExam", JVal.bool examValue)]] }]
    pending := st.pending ++ [Field.exam] }

/-- The part of `postSurveyData` that runs at the call. -/
def postSurveyData (st : State) (moduleId classId : Identifier) (surveyValue : Bool) : State :=
  { st with
    requests := st.requests ++
      [{ url := "https://dev-studioapi.code.az/api/Workers/CreateSurveySheet"
         method := "POST"
         body := [[("moduleId", JVal.num moduleId), ("classId", JVal.num classId),
                   ("isSurvey", JVal.bool surveyValue)]] }]
    pending := st.pending ++ [Field.survey] }

/-- The rest of `postExamData`, run when its `fetch` settles: the `try` body
after `await` and the `catch` clause. -/
def postExamDataSettled (st : State) (outcome : FetchOutcome) : State :=
  let tried : Except String Notification :=
    match outcome with
    | FetchOutcome.rejected reason => Except.error reason
    | FetchOutcome.response ok =>
      if !ok then Except.error "Failed to post exam data to API"
      else Except.ok (Notification.success "Exam data successfully posted")
  let shown : Notification :=
    match tried with
    | Except.ok n => n
    | Except.error _ => Notification.error "Failed to post exam data"
  { st with
    pending := st.pending.erase Field.exam
    notifications := st.notifications ++ [shown] }

/-- The rest of `postSurveyData`, run when its `fetch` settles. -/
def postSurveyDataSettled (st : State) (outcome : FetchOutcome) : State :=
  let tried : Except String Notification :=
    match outcome with
    | FetchOutcome.rejected reason => Except.error reason
    | FetchOutcome.response ok =>
      if !ok then Except.error "Failed to post survey data to API"
      else Except.ok (Notification.success "Survey data successfully posted")
  let shown : Notification :=
    match tried with
    | Except.ok n => n
    | Except.error _ => Notification.error "Failed to post survey data"
  { st with
    pending := st.pending.erase Field.survey
    notifications := st.notifications ++ [shown] }

/-- The write of flag `key` settles with `outcome`: the matching continuation runs. -/
def settle (st : State) (key : Field) (outcome : FetchOutcome) : State :=
  match key with
  | Field.exam => postExamDataSettled st outcome
  | Field.survey => postSurveyDataSettled st outcome

/-- The test `item.classId === record.classId && item.moduleId === record.moduleId`. -/
def sameIds (record item : Row) : Bool :=
  item.classId == record.classId && item.moduleId == record.moduleId

/-- The array `updatedData` of `handleCheckboxChange`. -/
def updatedData (filteredData : List Row) (record : Row) (key : Field) : List Row :=
  filteredData.map
    (fun item => if sameIds record item then item.set key (!record.get key) else item)

/-- The handler `handleCheckboxChange`, up to the point where it returns: the
state update and the calls of the two posting functions, each of which runs up
to its `await`. Reading `.exam` of a failed `find` throws; the error carries
the state reached. -/
def handleCheckboxChange (st : State) (record : Row) (key : Field) :
    Except (String × State) State :=
  let updated := updatedData st.filteredData record key
  let st1 : State := { st with filteredData := updated }
  let afterExam : Except (String × State) State :=
    if key = Field.exam then
      match updated.find? (fun item => sameIds record item) with
      | none => Except.error ("TypeError: Cannot read properties of undefined", st1)
      | some item => Except.ok (postExamData st1 record.moduleId record.classId item.exam)
    else Except.ok st1
  match afterExam with
  | Except.error e => Except.error e
  | Except.ok st2 =>
    if key = Field.survey then
      Except.ok (postSurveyData st2 record.moduleId record.classId (!record.survey))
    else Except.ok st2

/-! ## Column renderers -/

/-- The `Checkbox` element of a flag column: its `checked` prop and the
arguments its `onChange` passes to `handleCheckboxChange`. -/
structure Checkbox where
  checked : Bool
  onChange : Row × Field
deriving DecidableEq, Repr

/-- The `render` function of the survey column; `none` is `null`. -/
def surveyRender (record : Row) : Option Checkbox :=
  if record.programName = "Proqramlaşdırma" then none
  else some { checked := record.survey, onChange := (record, Field.survey) }

/-- The `render` function of the exam column; `none` is `null`. -/
def examRender (record : Row) : Option Checkbox :=
  let isProgramming :=
    record.programName = "Programming Backend" ∨ record.programName = "Programming Frontend"
  if isProgramming then some { checked := record.exam, onChange := (record, Field.exam) }
  else none

/-! ## Auxiliary definitions used in the statements -/

/-- Rows of a list whose key is not in `seen` and has not occurred earlier in
the list: a recursive description of one deduplication pass. -/
def firstSeen (seen : List String) : List Row → List Row
  | [] => []
  | r :: rs =>
    if rowKey r ∈ seen then firstSeen seen rs
    else r :: firstSeen (seen ++ [rowKey r]) rs

/-- The step function of the pass of `getUniqueData`. -/
def uniqueStep (uniqueMap : JsMap) (item : Row) : JsMap :=
  if !uniqueMap.has (rowKey item) then uniqueMap.set (rowKey item) item else uniqueMap

/-- The state a handler call leaves behind, whether it returned or threw. -/
def resultState (r : Except (String × State) State) : State :=
  match r with
  | Except.ok st => st
  | Except.error e => e.2

/-- No two rows at different positions carry the same `(classId, moduleId)`. -/
def UniqueIds (rows : List Row) : Prop :=
  rows.Pairwise (fun a b => ¬ (a.classId = b.classId ∧ a.moduleId = b.moduleId))

/-- The `(classId, moduleId)` pairs of a payload, one per (class, module) entry,
in payload order. -/
def payloadIds (data : List ClassData) : List (Identifier × Identifier) :=
  data.flatMap (fun c => c.modules.map (fun m => (c.classId, m.moduleId)))

/-! ## Concrete inputs -/

/-- A payload of two classes, with two modules and one module. -/
def twoClassPayload : List ClassData :=
  [ { classId := 1, className := "P101", programName := "Programming Backend",
      modules :=
        [ { moduleId := 10, modulName := "SQL", startDate := "2024-09-01",
            endDate := "2024-10-02", isSurvey := none, isExam := none },
          { moduleId := 11, modulName := "OOP", startDate := "2024-10-03",
            endDate := "2024-11-02", isSurvey := some true, isExam := some false } ] },
    { classId := 2, className := "D202", programName := "Design",
      modules :=
        [ { moduleId := 20, modulName := "UX", startDate := "2024-08-01",
            endDate := "2024-09-30", isSurvey := some false, isExam := some true } ] } ]

/-- A row with the given end date. -/
def rowEnding (moduleId : Identifier) (endDate : String) : Row :=
  { classId := 1, moduleId := moduleId, className := "P101",
    programName := "Programming Backend", moduleName := "SQL",
    startDate := "2024-09-01", endDate := endDate, survey := false, exam := false }

/-- A host parser that recognises nothing beyond the standard date-only form. -/
def noEngine : String → Option Int := fun _ => none

/-- Two rows whose display identities differ and whose joined keys coincide. -/
def dashRows : List Row :=
  [ { classId := 1, moduleId := 10, className := "A-B", programName := "C",
      moduleName := "M", startDate := "2024-09-01", endDate := "2024-10-02",
      survey := false, exam := false },
    { classId := 2, moduleId := 20, className := "A", programName := "B-C",
      moduleName := "M", startDate := "2024-09-01", endDate := "2024-10-02",
      survey := false, exam := false } ]

/-- The rows of `dashRows` followed by a second row of display identity
`("A", "B-C", "M")`, with another `moduleId`. -/
def dashRowsThree : List Row :=
  dashRows ++
  [ { classId := 2, moduleId := 21, className := "A", programName := "B-C",
      moduleName := "M", startDate := "2024-09-01", endDate := "2024-10-02",
      survey := false, exam := false } ]

/-- The payload of the end-to-end scenario: one class with `classId` 1 in
program `Programming Backend`, one module with `moduleId` 10 ending after the
cutoff, `isExam` absent. -/
def scenarioPayload : List ClassData :=
  [ { classId := 1, className := "P101", programName := "Programming Backend",
      modules :=
        [ { moduleId := 10, modulName := "SQL", startDate := "2024-09-01",
            endDate := "2024-10-02", isSurvey := none, isExam := none } ] } ]

/-- The state after the scenario payload has been fetched. -/
def scenarioState : State :=
  fetchData noEngine State.initial (FetchOutcome.response true) (Except.ok scenarioPayload)

/-- The only row of the scenario. -/
def scenarioRow : Row :=
  { classId := 1, moduleId := 10, className := "P101", programName := "Programming Backend",
    moduleName := "SQL", startDate := "2024-09-01", endDate := "2024-10-02",
    survey := false, exam := false }

/-- A payload whose class lists the module identifier 10 twice, under two
module names and with different exam flags. -/
def dupPayload : List ClassData :=
  [ { classId := 1, className := "P101", programName := "Programming Backend",
      modules :=
        [ { moduleId := 10, modulName := "SQL", startDate := "2024-09-01",
            endDate := "2024-10-02", isSurvey := none, isExam := none },
          { moduleId := 10, modulName := "SQL II", startDate := "2024-09-01",
            endDate := "2024-10-02", isSurvey := none, isExam := some true } ] } ]

/-- The state after `dupPayload` has been fetched. -/
def dupState : State :=
  fetchData noEngine State.initial (FetchOutcome.response true) (Except.ok dupPayload)

/-- The first row of `dupPayload`, with `exam` false. -/
def dupRecord : Row :=
  { classId := 1, moduleId := 10, className := "P101", programName := "Programming Backend",
    moduleName := "SQL", startDate := "2024-09-01", endDate := "2024-10-02",
    survey := false, exam := false }

/-- The second row of `dupPayload`, with `exam` true. -/
def dupOther : Row :=
  { classId := 1, moduleId := 10, className := "P101", programName := "Programming Backend",
    moduleName := "SQL II", startDate := "2024-09-01", endDate := "2024-10-02",
    survey := false, exam := true }

/-- The state right after the exam checkbox of the scenario row is clicked. -/
def scenarioToggled : State :=
  resultState (handleCheckboxChange scenarioState scenarioRow Field.exam)

/-- A row of the given program. -/
def rowOfProgram (programName : String) : Row :=
  { classId := 1, moduleId := 10, className := "P101", programName := programName,
    moduleName := "SQL", startDate := "2024-09-01", endDate := "2024-10-02",
    survey := false, exam := false }

/-! ## Flattener: lemmas -/

theorem flattenModules_nil : flattenModules [] = [] := rfl

theorem flattenModules_cons (c : ClassData) (cs : List ClassData) :
    flattenModules (c :: cs) = c.modules.map (mkRow c) ++ flattenModules cs := by
  simp [flattenModules, List.flatMap_cons]

theorem flattenModules_length (data : List ClassData) :
    (flattenModules data).length = (data.map (fun c => c.modules.length)).sum := by
  induction data with
  | nil => rfl
  | cons c cs ih => simp [flattenModules_cons, ih]

theorem flattenModules_getElem? (data : List ClassData) :
    ∀ (i j : Nat) (c : ClassData) (m : Module),
      data[i]? = some c → c.modules[j]? = some m →
      (flattenModules data)[rowOffset data i + j]? = some (mkRow c m) := by
  induction data with
  | nil => intro i j c m hc; simp at hc
  | cons d ds ih =>
    intro i j c m hc hm
    cases i with
    | zero =>
      simp at hc
      subst hc
      have hj : j < (d.modules.map (mkRow d)).length := by
        have := (List.getElem?_eq_some_iff.mp hm).1
        simpa using this
      simp [rowOffset, flattenModules_cons, List.getElem?_append_left hj, hm]
    | succ i =>
      simp at hc
      have h := ih i j c m hc hm
      have e : rowOffset (d :: ds) (i + 1) + j
          = (d.modules.map (mkRow d)).length + (rowOffset ds i + j) := by
        simp [rowOffset, Nat.add_assoc]
      rw [flattenModules_cons, e, List.getElem?_append_right (Nat.le_add_right _ _)]
      simpa using h

/-! ## Deduplicator: lemmas -/

theorem JsMap.has_iff (m : JsMap) (key : String) :
    m.has key = true ↔ key ∈ m.entries.map Prod.fst := by
  simp [JsMap.has, List.any_eq_true]

theorem foldl_uniqueStep_entries (l : List Row) :
    ∀ m : JsMap, (l.foldl uniqueStep m).entries
      = m.entries ++ (firstSeen (m.entries.map Prod.fst) l).map (fun r => (rowKey r, r)) := by
  induction l with
  | nil => intro m; simp [firstSeen]
  | cons r rs ih =>
    intro m
    rw [List.foldl_cons, ih]
    by_cases h : m.has (rowKey r) = true
    · have hmem := (JsMap.has_iff m (rowKey r)).mp h
      simp [uniqueStep, h, firstSeen, hmem]
    · have hmem : rowKey r ∉ m.entries.map Prod.fst := fun hm =>
        h ((JsMap.has_iff m (rowKey r)).mpr hm)
      simp only [Bool.not_eq_true] at h
      simp [uniqueStep, h, firstSeen, hmem, JsMap.set]

theorem getUniqueData_eq_firstSeen (data : List Row) :
    getUniqueData data = firstSeen [] data := by
  have h := foldl_uniqueStep_entries data JsMap.empty
  have e : getUniqueData data = (data.foldl uniqueStep JsMap.empty).values := rfl
  rw [e, JsMap.values, h]
  simp [JsMap.empty, List.map_map, Function.comp_def]

theorem firstSeen_sublist (l : List Row) : ∀ seen, (firstSeen seen l).Sublist l := by
  induction l with
  | nil => intro seen; simp [firstSeen]
  | cons r rs ih =>
    intro seen
    by_cases h : rowKey r ∈ seen
    · simp only [firstSeen, h, if_true]
      exact (ih seen).cons r
    · simp only [firstSeen, h, if_false]
      exact (ih _).cons₂ r

theorem firstSeen_not_seen (l : List Row) :
    ∀ seen r, r ∈ firstSeen seen l → rowKey r ∉ seen := by
  induction l with
  | nil => intro seen r h; simp [firstSeen] at h
  | cons a rs ih =>
    intro seen r h
    by_cases ha : rowKey a ∈ seen
    · simp only [firstSeen, ha, if_true] at h
      exact ih seen r h
    · simp only [firstSeen, ha, if_false, List.mem_cons] at h
      rcases h with rfl | h
      · exact ha
      · have := ih _ r h
        intro hs
        exact this (List.mem_append_left _ hs)

theorem firstSeen_pairwise (l : List Row) :
    ∀ seen, (firstSeen seen l).Pairwise (fun a b => rowKey a ≠ rowKey b) := by
  induction l with
  | nil => intro seen; simp [firstSeen]
  | cons a rs ih =>
    intro seen
    by_cases ha : rowKey a ∈ seen
    · simp only [firstSeen, ha, if_true]
      exact ih seen
    · simp only [firstSeen, ha, if_false]
      refine List.pairwise_cons.mpr ⟨?_, ih _⟩
      intro b hb hab
      have := firstSeen_not_seen rs _ b hb
      exact this (by simp [hab])

theorem firstSeen_complete (l : List Row) :
    ∀ seen r, r ∈ l → rowKey r ∉ seen →
      ∃ k, l.find? (fun x => decide (rowKey x = rowKey r)) = some k ∧ k ∈ firstSeen seen l := by
  induction l with
  | nil => intro seen r h; simp at h
  | cons a rs ih =>
    intro seen r hr hns
    by_cases hk : rowKey a = rowKey r
    · have ha : rowKey a ∉ seen := by rw [hk]; exact hns
      refine ⟨a, by simp [List.find?_cons, hk], ?_⟩
      simp [firstSeen, ha]
    · have hr2 : r ∈ rs := by
        rcases List.mem_cons.mp hr with h | h
        · exact absurd (by rw [h]) hk
        · exact h
      by_cases ha : rowKey a ∈ seen
      · obtain ⟨k, hf, hm⟩ := ih seen r hr2 hns
        refine ⟨k, by simp [List.find?_cons, hk, hf], ?_⟩
        simpa [firstSeen, ha] using hm
      · have hns2 : rowKey r ∉ seen ++ [rowKey a] := by
          simp only [List.mem_append, List.mem_singleton, not_or]
          exact ⟨hns, fun e => hk e.symm⟩
        obtain ⟨k, hf, hm⟩ := ih _ r hr2 hns2
        refine ⟨k, by simp [List.find?_cons, hk, hf], ?_⟩
        simp only [firstSeen, ha, if_false]
        exact List.mem_cons_of_mem _ hm

theorem rowKey_of_triple {a b : Row} (h : triple a = triple b) : rowKey a = rowKey b := by
  simp only [triple, Prod.mk.injEq] at h
  simp [rowKey, h.1, h.2.1, h.2.2]

theorem firstSeen_find (l : List Row) :
    ∀ seen r, r ∈ firstSeen seen l →
      l.find? (fun x => decide (triple x = triple r)) = some r := by
  induction l with
  | nil => intro seen r h; simp [firstSeen] at h
  | cons a rs ih =>
    intro seen r h
    by_cases ha : rowKey a ∈ seen
    · simp only [firstSeen, ha, if_true] at h
      have hr := firstSeen_not_seen rs seen r h
      have hne : triple a ≠ triple r := fun e => hr (rowKey_of_triple e ▸ ha)
      simp [List.find?_cons, hne, ih seen r h]
    · simp only [firstSeen, ha, if_false, List.mem_cons] at h
      rcases h with rfl | h
      · simp [List.find?_cons]
      · have hr := firstSeen_not_seen rs _ r h
        have hne : triple a ≠ triple r := fun e =>
          hr (by simp [rowKey_of_triple e])
        simp [List.find?_cons, hne, ih _ r h]

/-! ## Flag synchronizer: lemmas -/

theorem sameIds_self (record : Row) : sameIds record record = true := by
  simp [sameIds]

theorem sameIds_set (record item : Row) (key : Field) (v : Bool) :
    sameIds record (item.set key v) = sameIds record item := by
  cases key <;> rfl

theorem Row.get_set (item : Row) (key : Field) (v : Bool) : (item.set key v).get key = v := by
  cases key <;> rfl

theorem updatedData_length (rows : List Row) (record : Row) (key : Field) :
    (updatedData rows record key).length = rows.length := by
  simp [updatedData]

theorem updatedData_getElem? (rows : List Row) (record : Row) (key : Field) (i : Nat) :
    (updatedData rows record key)[i]?
      = (rows[i]?).map
          (fun item => if sameIds record item then item.set key (!record.get key) else item) := by
  simp [updatedData]

theorem updatedData_find (rows : List Row) (record : Row) (key : Field) :
    (∃ x ∈ rows, sameIds record x = true) →
    ∃ item, (updatedData rows record key).find? (fun item => sameIds record item) = some item
      ∧ item.get key = !record.get key := by
  induction rows with
  | nil => rintro ⟨x, hx, -⟩; simp at hx
  | cons a rs ih =>
    rintro ⟨x, hx, hs⟩
    by_cases ha : sameIds record a = true
    · refine ⟨a.set key (!record.get key), ?_, Row.get_set _ _ _⟩
      simp [updatedData, ha, sameIds_set]
    · have hx2 : x ∈ rs := by
        rcases List.mem_cons.mp hx with rfl | h
        · exact absurd hs ha
        · exact h
      obtain ⟨item, hf, hg⟩ := ih ⟨x, hx2, hs⟩
      refine ⟨item, ?_, hg⟩
      simp only [Bool.not_eq_true] at ha
      simpa [updatedData, ha] using hf

theorem handleCheckboxChange_filteredData (st : State) (record : Row) (key : Field) :
    (resultState (handleCheckboxChange st record key)).filteredData
      = updatedData st.filteredData record key := by
  cases key
  · simp [handleCheckboxChange, resultState, postSurveyData]
  · simp only [handleCheckboxChange, if_true]
    split <;> rename_i h
    · split at h
      · cases h; rfl
      · cases h
    · split at h
      · cases h
      · cases h; simp [resultState, postExamData]

theorem handleCheckboxChange_survey (st : State) (record : Row) :
    handleCheckboxChange st record Field.survey
      = Except.ok (postSurveyData
          { st with filteredData := updatedData st.filteredData record Field.survey }
          record.moduleId record.classId (!record.survey)) := by
  simp [handleCheckboxChange]

theorem handleCheckboxChange_exam (st : State) (record : Row)
    (h : ∃ x ∈ st.filteredData, sameIds record x = true) :
    handleCheckboxChange st record Field.exam
      = Except.ok (postExamData
          { st with filteredData := updatedData st.filteredData record Field.exam }
          record.moduleId record.classId (!record.exam)) := by
  obtain ⟨item, hf, hg⟩ := updatedData_find st.filteredData record Field.exam h
  have hg2 : item.exam = !record.exam := hg
  simp [handleCheckboxChange, hf, hg2]

theorem mem_filteredData_of_displayed (toLowerCase : String → String) (st : State) (record : Row)
    (h : record ∈ uniqueFilteredData toLowerCase st) : record ∈ st.filteredData := by
  unfold uniqueFilteredData at h
  rw [getUniqueData_eq_firstSeen] at h
  exact List.mem_of_mem_filter ((firstSeen_sublist _ _).subset h)

theorem eq_of_sameIds_of_uniqueIds {rows : List Row} (hu : UniqueIds rows) {a b : Row}
    (ha : a ∈ rows) (hb : b ∈ rows) (h : sameIds a b = true) : a = b := by
  by_contra hne
  have hsymm : Symmetric (fun a b : Row => ¬ (a.classId = b.classId ∧ a.moduleId = b.moduleId)) :=
    fun x y hxy hyx => hxy ⟨hyx.1.symm, hyx.2.symm⟩
  have := List.Pairwise.forall hsymm hu ha hb hne
  simp [sameIds] at h
  exact this ⟨h.1.symm, h.2.symm⟩

/-! ## Identifier uniqueness: lemmas -/

theorem settle_filteredData (st : State) (key : Field) (outcome : FetchOutcome) :
    (settle st key outcome).filteredData = st.filteredData := by
  cases key <;> rfl

theorem settle_requests (st : State) (key : Field) (outcome : FetchOutcome) :
    (settle st key outcome).requests = st.requests := by
  cases key <;> rfl

theorem handleCheckboxChange_ok (st : State) (record : Row) (key : Field)
    (h : ∃ x ∈ st.filteredData, sameIds record x = true) :
    ∃ st1 : State, handleCheckboxChange st record key = Except.ok st1
      ∧ st1.filteredData = updatedData st.filteredData record key
      ∧ st1.notifications = st.notifications
      ∧ st1.pending = st.pending ++ [key]
      ∧ st1.requests.length = st.requests.length + 1 := by
  cases key
  · exact ⟨_, handleCheckboxChange_survey st record, rfl, rfl, rfl, by simp [postSurveyData]⟩
  · exact ⟨_, handleCheckboxChange_exam st record h, rfl, rfl, rfl, by simp [postExamData]⟩

theorem uniqueIds_iff_nodup (rows : List Row) :
    UniqueIds rows ↔ (rows.map (fun r => (r.classId, r.moduleId))).Nodup := by
  unfold UniqueIds List.Nodup
  rw [List.pairwise_map]
  simp only [ne_eq, Prod.mk.injEq]

theorem flattenModules_ids (data : List ClassData) :
    (flattenModules data).map (fun r => (r.classId, r.moduleId)) = payloadIds data := by
  induction data with
  | nil => rfl
  | cons c cs ih =>
    have e : payloadIds (c :: cs)
        = c.modules.map (fun m => (c.classId, m.moduleId)) ++ payloadIds cs := by
      simp [payloadIds, List.flatMap_cons]
    rw [flattenModules_cons, List.map_append, ih, e]
    simp [List.map_map, Function.comp_def, mkRow]

theorem not_sameIds_of_uniqueIds {rows : List Row} (hu : UniqueIds rows) {i j : Nat}
    {a b : Row} (ha : rows[i]? = some a) (hb : rows[j]? = some b) (hij : i ≠ j) :
    sameIds a b = false := by
  obtain ⟨hi, rfl⟩ := List.getElem?_eq_some_iff.mp ha
  obtain ⟨hj, rfl⟩ := List.getElem?_eq_some_iff.mp hb
  have hp := List.pairwise_iff_getElem.mp hu
  cases h : sameIds rows[i] rows[j] with
  | false => rfl
  | true =>
    exfalso
    simp only [sameIds, Bool.and_eq_true, beq_iff_eq] at h
    rcases Nat.lt_or_gt_of_ne hij with hlt | hgt
    · exact hp i j hi hj hlt ⟨h.1.symm, h.2.symm⟩
    · exact hp j i hj hi hgt ⟨h.1, h.2⟩

theorem updatedData_eq_set {rows : List Row} (hu : UniqueIds rows) {i : Nat} {record : Row}
    (hr : rows[i]? = some record) (key : Field) :
    updatedData rows record key = rows.set i (record.set key (!record.get key)) := by
  apply List.ext_getElem?
  intro j
  rw [updatedData_getElem?, List.getElem?_set]
  by_cases hij : i = j
  · subst hij
    have hi := (List.getElem?_eq_some_iff.mp hr).1
    simp [hr, hi, sameIds_self]
  · simp only [hij, if_false]
    cases hb : rows[j]? with
    | none => rfl
    | some b =>
      have := not_sameIds_of_uniqueIds hu hr hb hij
      simp [this]

theorem filter_sameIds_eq {rows : List Row} (hu : UniqueIds rows) {record : Row}
    (hmem : record ∈ rows) :
    rows.filter (fun item => sameIds record item) = [record] := by
  induction rows with
  | nil => simp at hmem
  | cons a rs ih =>
    have hp := List.pairwise_cons.mp hu
    by_cases ha : a = record
    · subst ha
      have hnone : rs.filter (fun item => sameIds a item) = [] := by
        rw [List.filter_eq_nil_iff]
        intro b hb hs
        simp only [sameIds, Bool.and_eq_true, beq_iff_eq] at hs
        exact hp.1 b hb ⟨hs.1.symm, hs.2.symm⟩
      simp [List.filter_cons, sameIds_self, hnone]
    · have hr : record ∈ rs := by
        rcases List.mem_cons.mp hmem with h | h
        · exact absurd h.symm ha
        · exact h
      have hs : sameIds record a = false := by
        cases h : sameIds record a with
        | false => rfl
        | true =>
          exfalso
          simp only [sameIds, Bool.and_eq_true, beq_iff_eq] at h
          exact hp.1 record hr ⟨h.1, h.2⟩
      simp [List.filter_cons, hs, ih hp.2 hr]

/-! ## Date filter: lemmas -/

theorem newDate_cutoff (engine : String → Option Int) :
    newDate engine "2024-10-01" = some cutoffMs := by
  have h : parseIsoDateOnly "2024-10-01".data = some cutoffMs := by decide
  simp [newDate, h]

theorem dateGt_cutoff (engine : String → Option Int) (s : String) :
    dateGt (newDate engine s) (newDate engine "2024-10-01")
      = (match newDate engine s with
         | some t => decide (cutoffMs < t)
         | none => false) := by
  rw [newDate_cutoff]
  cases newDate engine s <;> rfl

theorem mem_dateFilter (engine : String → Option Int) (rows : List Row) (r : Row) :
    r ∈ dateFilter engine rows ↔
      r ∈ rows ∧ ∃ t, newDate engine r.endDate = some t ∧ cutoffMs < t := by
  simp only [dateFilter, List.mem_filter, dateGt_cutoff]
  cases h : newDate engine r.endDate <;> simp

/-! ## Main results -/

/-- C1: `flattenModules` returns as many rows as the payload has modules in
total; the row of module `j` of class `i` stands at the position given by the
modules of the earlier classes plus `j` (payload order), carries the class's
`classId`, `className`, `programName` and the module's `moduleId`, `modulName`
(as `moduleName`), `startDate`, `endDate`, and its `survey` / `exam` are the
module's `isSurvey` / `isExam`, or `false` when the field is absent. -/
theorem flattenModules_rows (data : List ClassData) :
    (flattenModules data).length = (data.map (fun c => c.modules.length)).sum
    ∧ ∀ (i j : Nat) (c : ClassData) (m : Module),
        data[i]? = some c → c.modules[j]? = some m →
        ∃ row, (flattenModules data)[rowOffset data i + j]? = some row
          ∧ row.classId = c.classId ∧ row.className = c.className
          ∧ row.programName = c.programName
          ∧ row.moduleId = m.moduleId ∧ row.moduleName = m.modulName
          ∧ row.startDate = m.startDate ∧ row.endDate = m.endDate
          ∧ row.survey = m.isSurvey.getD false ∧ row.exam = m.isExam.getD false := by
  refine ⟨flattenModules_length data, ?_⟩
  intro i j c m hc hm
  refine ⟨mkRow c m, flattenModules_getElem? data i j c m hc hm, rfl, rfl, rfl, rfl, rfl, rfl, rfl,
    ?_, ?_⟩
  · cases h : m.isSurvey with
    | none => simp [mkRow, orFalse, h]
    | some b => cases b <;> simp [mkRow, orFalse, h]
  · cases h : m.isExam with
    | none => simp [mkRow, orFalse, h]
    | some b => cases b <;> simp [mkRow, orFalse, h]

/-- C1 at a payload of two classes: three rows, and the only module of the
second class gives the row at position 2. -/
theorem flattenModules_rows_witness :
    (flattenModules twoClassPayload).length = 3
    ∧ ∃ row, (flattenModules twoClassPayload)[2]? = some row
        ∧ row.classId = 2 ∧ row.className = "D202" ∧ row.programName = "Design"
        ∧ row.moduleId = 20 ∧ row.moduleName = "UX"
        ∧ row.startDate = "2024-08-01" ∧ row.endDate = "2024-09-30"
        ∧ row.survey = false ∧ row.exam = true :=
  ⟨(flattenModules_rows twoClassPayload).1,
   (flattenModules_rows twoClassPayload).2 1 0
     { classId := 2, className := "D202", programName := "Design",
       modules :=
         [ { moduleId := 20, modulName := "UX", startDate := "2024-08-01",
             endDate := "2024-09-30", isSurvey := some false, isExam := some true } ] }
     { moduleId := 20, modulName := "UX", startDate := "2024-08-01",
       endDate := "2024-09-30", isSurvey := some false, isExam := some true }
     rfl rfl⟩

/-- C2: the date filter applied on fetch keeps, in their original order, exactly
the rows whose `endDate` parses to a time value strictly greater than the
cutoff, midnight UTC of 2024-10-01; a row whose `endDate` parses to the cutoff
itself, does not parse, or is `"2024-09-30"` is excluded, and a row with
`endDate` `"2024-10-02"` is included. -/
theorem dateFilter_keeps_after_cutoff (engine : String → Option Int) (rows : List Row) :
    dateFilter engine rows
        = rows.filter (fun r =>
            match newDate engine r.endDate with
            | some t => decide (cutoffMs < t)
            | none => false)
    ∧ (∀ r, r ∈ dateFilter engine rows ↔
          r ∈ rows ∧ ∃ t, newDate engine r.endDate = some t ∧ cutoffMs < t)
    ∧ (∀ r, newDate engine r.endDate = some cutoffMs → r ∉ dateFilter engine rows)
    ∧ (∀ r, newDate engine r.endDate = none → r ∉ dateFilter engine rows)
    ∧ (∀ r, r.endDate = "2024-10-01" → r ∉ dateFilter engine rows)
    ∧ (∀ r, r.endDate = "2024-09-30" → r ∉ dateFilter engine rows)
    ∧ (∀ r, r ∈ rows → r.endDate = "2024-10-02" → r ∈ dateFilter engine rows)
    ∧ (∀ (st : State) (payload : List ClassData),
          (fetchData engine st (FetchOutcome.response true) (Except.ok payload)).filteredData
            = dateFilter engine (flattenModules payload)) := by
  refine ⟨?_, mem_dateFilter engine rows, ?_, ?_, ?_, ?_, ?_, ?_⟩
  · simp only [dateFilter, dateGt_cutoff]
  · intro r h hm
    obtain ⟨-, t, ht, hlt⟩ := (mem_dateFilter engine rows r).mp hm
    rw [h] at ht
    cases ht
    exact lt_irrefl _ hlt
  · intro r h hm
    obtain ⟨-, t, ht, -⟩ := (mem_dateFilter engine rows r).mp hm
    rw [h] at ht
    cases ht
  · intro r h hm
    obtain ⟨-, t, ht, hlt⟩ := (mem_dateFilter engine rows r).mp hm
    rw [h, newDate_cutoff] at ht
    cases ht
    exact lt_irrefl _ hlt
  · intro r h hm
    obtain ⟨-, t, ht, hlt⟩ := (mem_dateFilter engine rows r).mp hm
    have hp : parseIsoDateOnly "2024-09-30".data = some 1727654400000 := by decide
    rw [h] at ht
    simp only [newDate, hp, Option.some.injEq] at ht
    subst ht
    exact absurd hlt (by decide)
  · intro r hr h
    have hp : parseIsoDateOnly "2024-10-02".data = some 1727827200000 := by decide
    refine (mem_dateFilter engine rows r).mpr ⟨hr, 1727827200000, ?_, by decide⟩
    rw [h]
    simp only [newDate, hp]
  · intro st payload
    simp [fetchData]

/-- C2 at four rows on a host that parses only the standard date-only form:
the row ending on 2024-10-02 is kept, the rows ending on 2024-09-30, on the
cutoff day and on an unreadable date are dropped. -/
theorem dateFilter_keeps_after_cutoff_witness :
    rowEnding 12 "2024-10-02" ∈ dateFilter noEngine
        [rowEnding 10 "2024-09-30", rowEnding 11 "2024-10-01", rowEnding 12 "2024-10-02",
         rowEnding 13 "soon"]
    ∧ rowEnding 10 "2024-09-30" ∉ dateFilter noEngine
        [rowEnding 10 "2024-09-30", rowEnding 11 "2024-10-01", rowEnding 12 "2024-10-02",
         rowEnding 13 "soon"]
    ∧ rowEnding 11 "2024-10-01" ∉ dateFilter noEngine
        [rowEnding 10 "2024-09-30", rowEnding 11 "2024-10-01", rowEnding 12 "2024-10-02",
         rowEnding 13 "soon"]
    ∧ rowEnding 13 "soon" ∉ dateFilter noEngine
        [rowEnding 10 "2024-09-30", rowEnding 11 "2024-10-01", rowEnding 12 "2024-10-02",
         rowEnding 13 "soon"] :=
  ⟨(dateFilter_keeps_after_cutoff noEngine _).2.2.2.2.2.2.1 (rowEnding 12 "2024-10-02")
      (by decide) rfl,
   (dateFilter_keeps_after_cutoff noEngine _).2.2.2.2.2.1 (rowEnding 10 "2024-09-30") rfl,
   (dateFilter_keeps_after_cutoff noEngine _).2.2.2.2.1 (rowEnding 11 "2024-10-01") rfl,
   (dateFilter_keeps_after_cutoff noEngine _).2.2.2.1 (rowEnding 13 "soon") (by decide)⟩

/-- What `getUniqueData` does for every input: the output is a subsequence of
the input, no two of its rows share the display identity, every row it keeps
is the first input row with that display identity, and every input row has its
joined key represented in the output by the first input row with that key. -/
theorem getUniqueData_general (data : List Row) :
    (getUniqueData data).Sublist data
    ∧ (getUniqueData data).Pairwise (fun a b => triple a ≠ triple b)
    ∧ (∀ r, r ∈ getUniqueData data →
          data.find? (fun x => decide (triple x = triple r)) = some r)
    ∧ (∀ r, r ∈ data →
          ∃ k, data.find? (fun x => decide (rowKey x = rowKey r)) = some k
            ∧ k ∈ getUniqueData data) := by
  rw [getUniqueData_eq_firstSeen]
  refine ⟨firstSeen_sublist data [], ?_, firstSeen_find data [], ?_⟩
  · exact (firstSeen_pairwise data []).imp (fun h e => h (rowKey_of_triple e))
  · intro r hr
    exact firstSeen_complete data [] r hr (by simp)

/-- C3 at `dashRowsThree`: its second and third rows have the same display
identity `("A", "B-C", "M")` and the `moduleId`s 20 and 21, so they should
collapse to the second row; the first row, of display identity
`("A-B", "C", "M")`, has the same joined key `A-B-C-M`, and `getUniqueData`
returns that row alone: the first row with display identity
`("A", "B-C", "M")` is not kept and that display identity has no row. -/
theorem getUniqueData_collapse_lost :
    dashRowsThree.map triple = [("A-B", "C", "M"), ("A", "B-C", "M"), ("A", "B-C", "M")]
    ∧ dashRowsThree.map (fun r => r.moduleId) = [10, 20, 21]
    ∧ dashRowsThree.map rowKey = ["A-B-C-M", "A-B-C-M", "A-B-C-M"]
    ∧ (getUniqueData dashRowsThree).map (fun r => r.moduleId) = [10]
    ∧ (∃ r, dashRowsThree.find? (fun x => decide (triple x = ("A", "B-C", "M"))) = some r
          ∧ r.moduleId = 20 ∧ r ∉ getUniqueData dashRowsThree)
    ∧ ("A", "B-C", "M") ∉ (getUniqueData dashRowsThree).map triple := by
  refine ⟨by decide, by decide, by decide, by decide, ⟨_, rfl, by decide, by decide⟩, by decide⟩

/-- C4 at `dashRows`: the rows with display identities `("A-B", "C", "M")` and
`("A", "B-C", "M")` get the same key `A-B-C-M`, so `getUniqueData` keeps only
the first and the second display identity is absent from the output. -/
theorem getUniqueData_dash_collision :
    (dashRows.map triple) = [("A-B", "C", "M"), ("A", "B-C", "M")]
    ∧ (dashRows.map rowKey) = ["A-B-C-M", "A-B-C-M"]
    ∧ (getUniqueData dashRows).map triple = [("A-B", "C", "M")]
    ∧ ("A", "B-C", "M") ∉ (getUniqueData dashRows).map triple := by
  decide

/-- C5, counterexample: the payload `dupPayload` flattens and filters to two
displayed rows with the same `(classId, moduleId)` and `exam` false and true;
toggling `exam` on the first leaves the second, which matches the record, at
`true`, its value before the call, not at the negation of that value. -/
theorem handleCheckboxChange_duplicate_not_negated :
    dupState.filteredData = [dupRecord, dupOther]
    ∧ dupRecord ∈ uniqueFilteredData id dupState
    ∧ sameIds dupRecord dupOther = true
    ∧ (∃ st1 : State, handleCheckboxChange dupState dupRecord Field.exam = Except.ok st1
        ∧ st1.filteredData[1]? = some dupOther
        ∧ dupOther.get Field.exam ≠ !dupOther.get Field.exam
        ∧ ¬ (∀ (i : Nat) (before : Row), dupState.filteredData[i]? = some before →
              sameIds dupRecord before = true →
              ∃ after, st1.filteredData[i]? = some after
                ∧ after.get Field.exam = !before.get Field.exam)) := by
  refine ⟨by decide, by decide, by decide, _, rfl, by decide, by decide, ?_⟩
  intro h
  obtain ⟨after, h1, h2⟩ := h 1 dupOther (by decide) (by decide)
  have e : after = dupOther := by
    have h3 : (some after : Option Row) = some dupOther := by
      rw [← h1]; decide
    exact Option.some.inj h3
  subst e
  exact absurd h2 (by decide)

/-- C5, amended: for a displayed `record`, `handleCheckboxChange` returns
normally with no response processed yet (the write is pending, no notification
shown), and in the row set it has produced every row with the record's
`(classId, moduleId)` holds in `field` the negation of the record's value; the
record's own row is replaced by the record with `field` negated; when no two
rows of the set share `(classId, moduleId)` every matching row holds the
negation of its own earlier value; and no outcome of the write changes the
row set afterwards. -/
theorem handleCheckboxChange_flips (toLowerCase : String → String) (st : State) (record : Row)
    (key : Field) (h : record ∈ uniqueFilteredData toLowerCase st) :
    ∃ st1 : State, handleCheckboxChange st record key = Except.ok st1
      ∧ st1.notifications = st.notifications
      ∧ st1.pending = st.pending ++ [key]
      ∧ (∀ (i : Nat) (before : Row), st.filteredData[i]? = some before →
            sameIds record before = true →
            ∃ after, st1.filteredData[i]? = some after
              ∧ after.get key = !record.get key)
      ∧ (∃ i : Nat, st.filteredData[i]? = some record
            ∧ st1.filteredData[i]? = some (record.set key (!record.get key)))
      ∧ (UniqueIds st.filteredData →
            ∀ (i : Nat) (before : Row), st.filteredData[i]? = some before →
              sameIds record before = true →
              ∃ after, st1.filteredData[i]? = some after
                ∧ after.get key = !before.get key)
      ∧ (∀ outcome, (settle st1 key outcome).filteredData = st1.filteredData) := by
  have hmem := mem_filteredData_of_displayed toLowerCase st record h
  obtain ⟨st1, hok, hfd, hn, hp, -⟩ :=
    handleCheckboxChange_ok st record key ⟨record, hmem, sameIds_self record⟩
  have hall : ∀ (i : Nat) (before : Row), st.filteredData[i]? = some before →
      sameIds record before = true →
      st1.filteredData[i]? = some (before.set key (!record.get key)) := by
    intro i before hb hs
    rw [hfd, updatedData_getElem?, hb]
    simp [hs]
  refine ⟨st1, hok, hn, hp, ?_, ?_, ?_, fun outcome => settle_filteredData st1 key outcome⟩
  · intro i before hb hs
    exact ⟨_, hall i before hb hs, Row.get_set _ _ _⟩
  · obtain ⟨i, hi⟩ := List.getElem?_of_mem hmem
    exact ⟨i, hi, hall i record hi (sameIds_self record)⟩
  · intro hu i before hb hs
    have hbm : before ∈ st.filteredData := List.getElem?_mem hb
    have e : record = before := eq_of_sameIds_of_uniqueIds hu hmem hbm hs
    subst e
    exact ⟨_, hall i record hb hs, Row.get_set _ _ _⟩

/-- C5, amended, at the scenario: toggling `exam` on the only row, whose `exam`
is false, returns a state whose row has `exam` true while the write is pending. -/
theorem handleCheckboxChange_flips_witness :
    ∃ st1 : State, handleCheckboxChange scenarioState scenarioRow Field.exam = Except.ok st1
      ∧ st1.notifications = scenarioState.notifications
      ∧ st1.pending = scenarioState.pending ++ [Field.exam]
      ∧ (∀ (i : Nat) (before : Row), scenarioState.filteredData[i]? = some before →
            sameIds scenarioRow before = true →
            ∃ after, st1.filteredData[i]? = some after
              ∧ after.get Field.exam = !scenarioRow.get Field.exam)
      ∧ (∃ i : Nat, scenarioState.filteredData[i]? = some scenarioRow
            ∧ st1.filteredData[i]? = some (scenarioRow.set Field.exam (!scenarioRow.get Field.exam)))
      ∧ (UniqueIds scenarioState.filteredData →
            ∀ (i : Nat) (before : Row), scenarioState.filteredData[i]? = some before →
              sameIds scenarioRow before = true →
              ∃ after, st1.filteredData[i]? = some after
                ∧ after.get Field.exam = !before.get Field.exam)
      ∧ (∀ outcome, (settle st1 Field.exam outcome).filteredData = st1.filteredData) :=
  handleCheckboxChange_flips id scenarioState scenarioRow Field.exam (by decide)

/-- C6: `handleCheckboxChange(record, field)` leaves the row set with the same
length and order; a row whose `(classId, moduleId)` differs from the record's is
unchanged; and in every row the identifiers, names, dates and the flag other
than `field` are unchanged. -/
theorem handleCheckboxChange_frame (st : State) (record : Row) (key : Field) :
    (resultState (handleCheckboxChange st record key)).filteredData.length
        = st.filteredData.length
    ∧ ∀ (i : Nat) (before : Row), st.filteredData[i]? = some before →
        ∃ after, (resultState (handleCheckboxChange st record key)).filteredData[i]? = some after
          ∧ (sameIds record before = false → after = before)
          ∧ after.classId = before.classId ∧ after.moduleId = before.moduleId
          ∧ after.className = before.className ∧ after.programName = before.programName
          ∧ after.moduleName = before.moduleName
          ∧ after.startDate = before.startDate ∧ after.endDate = before.endDate
          ∧ (∀ other : Field, other ≠ key → after.get other = before.get other)
          ∧ (key = Field.exam → after.survey = before.survey)
          ∧ (key = Field.survey → after.exam = before.exam) := by
  rw [handleCheckboxChange_filteredData]
  refine ⟨updatedData_length _ _ _, ?_⟩
  intro i before hb
  rw [updatedData_getElem?, hb]
  refine ⟨_, rfl, ?_⟩
  beta_reduce
  by_cases hs : sameIds record before = true
  · rw [if_pos hs]
    refine ⟨fun hf => absurd hs (by simp [hf]), ?_⟩
    cases key
    · refine ⟨rfl, rfl, rfl, rfl, rfl, rfl, rfl, ?_, by simp, fun _ => rfl⟩
      intro other ho
      cases other
      · exact absurd rfl ho
      · rfl
    · refine ⟨rfl, rfl, rfl, rfl, rfl, rfl, rfl, ?_, fun _ => rfl, by simp⟩
      intro other ho
      cases other
      · rfl
      · exact absurd rfl ho
  · rw [if_neg hs]
    simp

/-- C6 at `dupState`: toggling `exam` on the first row keeps two rows, and the
row at position 1 keeps its identifiers, names, dates and `survey`. -/
theorem handleCheckboxChange_frame_witness :
    ∃ after, (resultState (handleCheckboxChange dupState dupRecord Field.exam)).filteredData[1]?
        = some after
      ∧ (sameIds dupRecord dupOther = false → after = dupOther)
      ∧ after.classId = dupOther.classId ∧ after.moduleId = dupOther.moduleId
      ∧ after.className = dupOther.className ∧ after.programName = dupOther.programName
      ∧ after.moduleName = dupOther.moduleName
      ∧ after.startDate = dupOther.startDate ∧ after.endDate = dupOther.endDate
      ∧ (∀ other : Field, other ≠ Field.exam → after.get other = dupOther.get other)
      ∧ (Field.exam = Field.exam → after.survey = dupOther.survey)
      ∧ (Field.exam = Field.survey → after.exam = dupOther.exam) :=
  (handleCheckboxChange_frame dupState dupRecord Field.exam).2 1 dupOther (by decide)

/-- C7: for every row `record` of the filtered set, one call of
`handleCheckboxChange` issues exactly one request and none for the other flag.
With `exam` it is a `POST` to `CreateExamSheet` whose body is the single object
`(moduleId, classId, isExam := not record.exam)`, the value being read from the
updated row, whose lookup succeeds; with `survey` it is a `POST` to
`CreateSurveySheet` with body `(moduleId, classId, isSurvey := not record.survey)`. -/
theorem handleCheckboxChange_one_write (st : State) (record : Row)
    (h : record ∈ st.filteredData) :
    (∃ st1 : State, handleCheckboxChange st record Field.exam = Except.ok st1
        ∧ st1.requests = st.requests ++
            [{ url := "https://dev-studioapi.code.az/api/Workers/CreateExamSheet"
               method := "POST"
               body := [[("moduleId", JVal.num record.moduleId),
                         ("classId", JVal.num record.classId),
                         ("isExam", JVal.bool (!record.exam))]] }]
        ∧ st1.pending = st.pending ++ [Field.exam]
        ∧ ∃ item, st1.filteredData.find? (fun item => sameIds record item) = some item
            ∧ item.exam = !record.exam)
    ∧ (∃ st1 : State, handleCheckboxChange st record Field.survey = Except.ok st1
        ∧ st1.requests = st.requests ++
            [{ url := "https://dev-studioapi.code.az/api/Workers/CreateSurveySheet"
               method := "POST"
               body := [[("moduleId", JVal.num record.moduleId),
                         ("classId", JVal.num record.classId),
                         ("isSurvey", JVal.bool (!record.survey))]] }]
        ∧ st1.pending = st.pending ++ [Field.survey]) := by
  have hex : ∃ x ∈ st.filteredData, sameIds record x = true :=
    ⟨record, h, sameIds_self record⟩
  refine ⟨⟨_, handleCheckboxChange_exam st record hex, rfl, rfl, ?_⟩,
    ⟨_, handleCheckboxChange_survey st record, rfl, rfl⟩⟩
  exact updatedData_find st.filteredData record Field.exam hex

/-- C7 at the scenario (`classId` 1, `moduleId` 10, `exam` false): toggling
`exam` issues the single request with `moduleId` 10, `classId` 1 and `isExam`
true, and toggling `survey` issues the single survey request. -/
theorem handleCheckboxChange_one_write_witness :
    (∃ st1 : State, handleCheckboxChange scenarioState scenarioRow Field.exam = Except.ok st1
        ∧ st1.requests = scenarioState.requests ++
            [{ url := "https://dev-studioapi.code.az/api/Workers/CreateExamSheet"
               method := "POST"
               body := [[("moduleId", JVal.num scenarioRow.moduleId),
                         ("classId", JVal.num scenarioRow.classId),
                         ("isExam", JVal.bool (!scenarioRow.exam))]] }]
        ∧ st1.pending = scenarioState.pending ++ [Field.exam]
        ∧ ∃ item, st1.filteredData.find? (fun item => sameIds scenarioRow item) = some item
            ∧ item.exam = !scenarioRow.exam)
    ∧ (∃ st1 : State, handleCheckboxChange scenarioState scenarioRow Field.survey = Except.ok st1
        ∧ st1.requests = scenarioState.requests ++
            [{ url := "https://dev-studioapi.code.az/api/Workers/CreateSurveySheet"
               method := "POST"
               body := [[("moduleId", JVal.num scenarioRow.moduleId),
                         ("classId", JVal.num scenarioRow.classId),
                         ("isSurvey", JVal.bool (!scenarioRow.survey))]] }]
        ∧ st1.pending = scenarioState.pending ++ [Field.survey]) :=
  handleCheckboxChange_one_write scenarioState scenarioRow (by decide)

/-- C8: when the write of a toggle settles, whatever the outcome, the row set is
the one of the optimistic update (no rollback), the request log is unchanged
(no retry), and exactly one notification is added: a success notification when
the response is a success, an error notification when the response is not a
success or the transport failed. -/
theorem settle_no_rollback (st : State) (record : Row) (key : Field) (st1 : State)
    (outcome : FetchOutcome) (h : handleCheckboxChange st record key = Except.ok st1) :
    st1.requests.length = st.requests.length + 1
    ∧ st1.pending = st.pending ++ [key]
    ∧ st1.notifications = st.notifications
    ∧ (settle st1 key outcome).filteredData = st1.filteredData
    ∧ (settle st1 key outcome).filteredData = updatedData st.filteredData record key
    ∧ (settle st1 key outcome).requests = st1.requests
    ∧ ∃ n, (settle st1 key outcome).notifications = st1.notifications ++ [n]
        ∧ (outcome = FetchOutcome.response true →
            n = (match key with
                 | Field.exam => Notification.success "Exam data successfully posted"
                 | Field.survey => Notification.success "Survey data successfully posted"))
        ∧ (outcome ≠ FetchOutcome.response true →
            n = (match key with
                 | Field.exam => Notification.error "Failed to post exam data"
                 | Field.survey => Notification.error "Failed to post survey data")) := by
  have hfd : st1.filteredData = updatedData st.filteredData record key := by
    have := handleCheckboxChange_filteredData st record key
    rw [h] at this
    exact this
  have hrest : st1.requests.length = st.requests.length + 1
      ∧ st1.pending = st.pending ++ [key] ∧ st1.notifications = st.notifications := by
    cases key
    · rw [handleCheckboxChange_survey] at h
      cases h
      simp [postSurveyData]
    · cases hf : (updatedData st.filteredData record Field.exam).find?
          (fun item => sameIds record item) with
      | none => simp [handleCheckboxChange, hf] at h
      | some item =>
        simp only [handleCheckboxChange, hf, if_true, reduceCtorEq, if_false,
          Except.ok.injEq] at h
        subst h
        simp [postExamData]
  refine ⟨hrest.1, hrest.2.1, hrest.2.2, settle_filteredData st1 key outcome, ?_,
    settle_requests st1 key outcome, ?_⟩
  · rw [settle_filteredData, hfd]
  · cases key
    · cases outcome with
      | rejected reason => exact ⟨_, rfl, by simp, fun _ => rfl⟩
      | response ok =>
        cases ok
        · exact ⟨_, rfl, by simp, fun _ => rfl⟩
        · exact ⟨_, rfl, fun _ => rfl, by simp⟩
    · cases outcome with
      | rejected reason => exact ⟨_, rfl, by simp, fun _ => rfl⟩
      | response ok =>
        cases ok
        · exact ⟨_, rfl, by simp, fun _ => rfl⟩
        · exact ⟨_, rfl, fun _ => rfl, by simp⟩

/-- C8 at the scenario with a non-success response: the row keeps `exam` true,
no request is added, and the one notification added is the exam failure. -/
theorem settle_no_rollback_witness :
    handleCheckboxChange scenarioState scenarioRow Field.exam = Except.ok scenarioToggled
    ∧ scenarioToggled.requests.length = scenarioState.requests.length + 1
    ∧ scenarioToggled.pending = scenarioState.pending ++ [Field.exam]
    ∧ scenarioToggled.notifications = scenarioState.notifications
    ∧ (settle scenarioToggled Field.exam (FetchOutcome.response false)).filteredData
        = scenarioToggled.filteredData
    ∧ (settle scenarioToggled Field.exam (FetchOutcome.response false)).filteredData
        = updatedData scenarioState.filteredData scenarioRow Field.exam
    ∧ (settle scenarioToggled Field.exam (FetchOutcome.response false)).requests
        = scenarioToggled.requests
    ∧ ∃ n, (settle scenarioToggled Field.exam (FetchOutcome.response false)).notifications
          = scenarioToggled.notifications ++ [n]
        ∧ (FetchOutcome.response false = FetchOutcome.response true →
            n = (match Field.exam with
                 | Field.exam => Notification.success "Exam data successfully posted"
                 | Field.survey => Notification.success "Survey data successfully posted"))
        ∧ (FetchOutcome.response false ≠ FetchOutcome.response true →
            n = (match Field.exam with
                 | Field.exam => Notification.error "Failed to post exam data"
                 | Field.survey => Notification.error "Failed to post survey data")) :=
  ⟨rfl,
   settle_no_rollback scenarioState scenarioRow Field.exam scenarioToggled
     (FetchOutcome.response false) rfl⟩

/-- C9: the survey column renders a checkbox exactly when `programName` is not
`Proqramlaşdırma`, and the exam column renders one exactly when `programName`
is `Programming Backend` or `Programming Frontend`; otherwise the cell is
empty. A row of program `Other` has a survey checkbox and no exam checkbox, a
row of `Proqramlaşdırma` has neither, and a row of `Programming Backend` has
an exam checkbox. -/
theorem render_visibility (record : Row) :
    ((surveyRender record).isSome = true ↔ record.programName ≠ "Proqramlaşdırma")
    ∧ (surveyRender record = none ↔ record.programName = "Proqramlaşdırma")
    ∧ ((examRender record).isSome = true ↔
          (record.programName = "Programming Backend"
            ∨ record.programName = "Programming Frontend"))
    ∧ (examRender record = none ↔
          ¬ (record.programName = "Programming Backend"
            ∨ record.programName = "Programming Frontend"))
    ∧ (record.programName = "Other" →
          (surveyRender record).isSome = true ∧ examRender record = none)
    ∧ (record.programName = "Proqramlaşdırma" →
          surveyRender record = none ∧ examRender record = none)
    ∧ (record.programName = "Programming Backend" → (examRender record).isSome = true) := by
  refine ⟨?_, ?_, ?_, ?_, ?_, ?_, ?_⟩
  · by_cases h : record.programName = "Proqramlaşdırma" <;> simp [surveyRender, h]
  · by_cases h : record.programName = "Proqramlaşdırma" <;> simp [surveyRender, h]
  · by_cases h : record.programName = "Programming Backend"
        ∨ record.programName = "Programming Frontend"
    · simp only [examRender, h, if_true, Option.isSome_some]
    · simp only [examRender, h, if_false, Option.isSome_none, Bool.false_eq_true]
  · by_cases h : record.programName = "Programming Backend"
        ∨ record.programName = "Programming Frontend"
    · simp only [examRender, h, if_true, not_true_eq_false, reduceCtorEq]
    · simp only [examRender, h, if_false, not_false_eq_true]
  · intro h
    have h1 : ("Other" : String) ≠ "Proqramlaşdırma" := by decide
    have h2 : ("Other" : String) ≠ "Programming Backend" := by decide
    have h3 : ("Other" : String) ≠ "Programming Frontend" := by decide
    simp [surveyRender, examRender, h, h1, h2, h3]
  · intro h
    have h2 : ("Proqramlaşdırma" : String) ≠ "Programming Backend" := by decide
    have h3 : ("Proqramlaşdırma" : String) ≠ "Programming Frontend" := by decide
    simp [surveyRender, examRender, h, h2, h3]
  · intro h
    simp [examRender, h]

/-- C9 at rows of the programs `Other`, `Proqramlaşdırma` and
`Programming Backend`. -/
theorem render_visibility_witness :
    ((surveyRender (rowOfProgram "Other")).isSome = true
        ∧ examRender (rowOfProgram "Other") = none)
    ∧ (surveyRender (rowOfProgram "Proqramlaşdırma") = none
        ∧ examRender (rowOfProgram "Proqramlaşdırma") = none)
    ∧ (examRender (rowOfProgram "Programming Backend")).isSome = true :=
  ⟨(render_visibility (rowOfProgram "Other")).2.2.2.2.1 rfl,
   (render_visibility (rowOfProgram "Proqramlaşdırma")).2.2.2.2.2.1 rfl,
   (render_visibility (rowOfProgram "Programming Backend")).2.2.2.2.2.2 rfl⟩

/-- C10, counterexample: `dupPayload` flattens to two rows, at positions 0 and
1, with the same `classId` and the same `moduleId`; both pass the date filter,
and a toggle on the first changes both rows. -/
theorem flattenModules_duplicate_ids :
    flattenModules dupPayload = [dupRecord, dupOther]
    ∧ dateFilter noEngine (flattenModules dupPayload) = [dupRecord, dupOther]
    ∧ dupRecord.classId = dupOther.classId ∧ dupRecord.moduleId = dupOther.moduleId
    ∧ ¬ UniqueIds (flattenModules dupPayload)
    ∧ updatedData [dupRecord, dupOther] dupRecord Field.survey
        = [dupRecord.set Field.survey true, dupOther.set Field.survey true]
    ∧ dupRecord.set Field.survey true ≠ dupRecord
    ∧ dupOther.set Field.survey true ≠ dupOther := by
  refine ⟨by decide, by decide, by decide, by decide, ?_, by decide, by decide, by decide⟩
  intro hu
  have h0 : flattenModules dupPayload = [dupRecord, dupOther] := by decide
  rw [h0] at hu
  have := (List.pairwise_cons.mp hu).1 dupOther (by simp)
  exact this (by decide)

/-- C10, amended: `flattenModules` returns one row per (class, module) entry of
the payload, carrying that entry's `(classId, moduleId)`; when no two entries of
the payload carry the same pair, no two rows at different positions of the
flattened set, nor of the date-filtered set, share `(classId, moduleId)`, and a
toggle on a row of the filtered set replaces exactly that one row. -/
theorem flattenModules_uniqueIds (engine : String → Option Int) (data : List ClassData) :
    (flattenModules data).map (fun r => (r.classId, r.moduleId)) = payloadIds data
    ∧ ((payloadIds data).Nodup →
        UniqueIds (flattenModules data)
        ∧ UniqueIds (dateFilter engine (flattenModules data))
        ∧ ∀ (record : Row) (key : Field), record ∈ dateFilter engine (flattenModules data) →
            ∃ i : Nat, (dateFilter engine (flattenModules data))[i]? = some record
              ∧ updatedData (dateFilter engine (flattenModules data)) record key
                  = (dateFilter engine (flattenModules data)).set i
                      (record.set key (!record.get key))
              ∧ (dateFilter engine (flattenModules data)).filter
                    (fun item => sameIds record item) = [record]) := by
  refine ⟨flattenModules_ids data, ?_⟩
  intro hnd
  have hu : UniqueIds (flattenModules data) := by
    rw [uniqueIds_iff_nodup, flattenModules_ids]
    exact hnd
  have huf : UniqueIds (dateFilter engine (flattenModules data)) :=
    List.Pairwise.sublist (List.filter_sublist _) hu
  refine ⟨hu, huf, ?_⟩
  intro record key hmem
  obtain ⟨i, hi⟩ := List.getElem?_of_mem hmem
  refine ⟨i, hi, updatedData_eq_set huf hi key, ?_⟩
  exact filter_sameIds_eq huf hmem

/-- C10, amended, at the two-class payload: its three `(classId, moduleId)`
pairs are distinct, so the rows are uniquely keyed and a toggle of `survey` on
the first filtered row replaces that row alone. -/
theorem flattenModules_uniqueIds_witness :
    (payloadIds twoClassPayload).Nodup
    ∧ UniqueIds (flattenModules twoClassPayload)
    ∧ UniqueIds (dateFilter noEngine (flattenModules twoClassPayload))
    ∧ ∃ i : Nat, (dateFilter noEngine (flattenModules twoClassPayload))[i]? = some scenarioRow
        ∧ updatedData (dateFilter noEngine (flattenModules twoClassPayload)) scenarioRow
              Field.survey
            = (dateFilter noEngine (flattenModules twoClassPayload)).set i
                (scenarioRow.set Field.survey (!scenarioRow.get Field.survey))
        ∧ (dateFilter noEngine (flattenModules twoClassPayload)).filter
              (fun item => sameIds scenarioRow item) = [scenarioRow] :=
  ⟨by decide,
   ((flattenModules_uniqueIds noEngine twoClassPayload).2 (by decide)).1,
   ((flattenModules_uniqueIds noEngine twoClassPayload).2 (by decide)).2.1,
   ((flattenModules_uniqueIds noEngine twoClassPayload).2 (by decide)).2.2
     scenarioRow Field.survey (by decide)⟩

end ExamModuleList
